import Mathlib

/-!
# Verification of `redis_queue_mover.cpp` (libmooon)

A shallow embedding of the mover tool in `src/tools/redis_queue_mover.cpp`.
The tool moves values from a source redis list (popped from the tail with
`rpop`) to either a destination redis list (pushed to the head with a
multi-value `lpush`) or to a local file, using a pool of worker threads
(`move_thread_proc`), a global atomic counter `g_num_moved`, and a global
atomic stop flag `g_stop`.

Modelling conventions:
* Redis lists are `List String`, written front-to-back (head of the `List`
  is the head/left end of the redis list).  `rpop` removes the last element;
  a multi-value `lpush` of a batch puts the batch, contiguous and in batch
  order, at the head.  The r3c client library is not part of this
  repository, so `lpush`/`rpop` are modelled from their documented boundary
  (atomic single-key tail-pop, atomic order-preserving multi-value
  head-push, with a distinguishable "empty" answer).
* The worker's interaction with the outside world (the signal thread
  writing `g_stop`, transient redis exceptions on `rpop` and `lpush`, and
  the success or failure of `write(2)`) is parametrised by explicit
  schedules (`Sched`, and a `pushOk` schedule for the delivery/retry loop).
  Schedules are consumed head first; recursive calls shift them.
* The genuinely unbounded retry loop `while (!values.empty())` is embedded
  with an explicit fuel argument; the returned `Bool` records whether the
  loop exited within that fuel (`true`) or is still running (`false`).
* Logging is not modelled.  Counts of observable events (successful pops,
  `millisleep` calls, `lpush` calls, successfully pushed batches) are kept
  in the state so that temporal claims can be stated.
-/

/-- A redis `RPOP`: remove and return the tail (right end) of the list,
or `none` when the list is empty. -/
def rpop (xs : List String) : Option (String × List String) :=
  match xs.getLast? with
  | none => none
  | some v => some (v, xs.dropLast)

/-- Modelled from the spec: `r3c::CRedisClient::lpush(key, values)` is not
part of this repository.  Per the spec's boundary description, a
multi-value push places the whole batch at the head (left end) of the
destination list, preserving argument order, the batch contiguous. -/
def lpush (vals q : List String) : List String := vals ++ q

/-- The state touched by one mover worker (`move_thread_proc`), plus the
process-global flag and counter it shares with the other threads. -/
structure MState where
  /-- the source redis list (front-to-back); `rpop` takes the last element -/
  src : List String
  /-- the destination redis list (front-to-back), queue-store variant -/
  dstQ : List String
  /-- lines successfully written to the destination file, file variant -/
  fileOut : List String
  /-- the global stop flag `g_stop` -/
  gStop : Bool
  /-- the global move counter `g_num_moved` -/
  counter : Nat
  /-- number of successful `rpop` calls made by this worker -/
  pops : Nat
  /-- number of `millisleep(retry_interval)` calls made by this worker -/
  sleeps : Nat
  /-- number of `lpush` calls issued by this worker (failures included) -/
  pushCalls : Nat
  /-- the batches successfully pushed by this worker, oldest first -/
  pushLog : List (List String)
  deriving Repr, DecidableEq

/-- Environment schedule for the accumulation loop, consumed head first:
`sig k` — the signal thread runs `on_terminated` (`g_stop = true`) right
after the `k`-th loop-condition check; `popErr k` — the `k`-th `rpop` call
throws a (caught) `CRedisException`; `writeOk k` — the `write(2)` call of
the `k`-th iteration succeeds. -/
structure Sched where
  sig : Nat → Bool
  popErr : Nat → Bool
  writeOk : Nat → Bool

/-- Drop the first entry of every schedule component. -/
def Sched.shift (sc : Sched) : Sched :=
  ⟨fun k => sc.sig (k + 1), fun k => sc.popErr (k + 1), fun k => sc.writeOk (k + 1)⟩

/-- The batch-accumulation loop of `move_thread_proc`
(`for (int k=0; !g_stop&&k<batch; ++k) { ... }`, lines 315–345):
pop up to `remaining` more values from the source; in the queue-store
variant (`redisDst = true`) append each to `vals`, in the file variant
write each (with a trailing newline) to the destination file descriptor.
An empty `rpop` breaks the loop; a caught redis exception just continues
it; a failed `write` logs, assigns `g_stop = false` and breaks.
`remaining` plays the role of `batch - k`. -/
def accumFrom (redisDst : Bool) (sc : Sched) :
    Nat → MState → List String → MState × List String
  | 0, s, vals => (s, vals)
  | remaining + 1, s, vals =>
    if s.gStop then (s, vals)
    else
      let s1 := if sc.sig 0 then { s with gStop := true } else s
      if sc.popErr 0 then
        accumFrom redisDst sc.shift remaining s1 vals
      else
        match rpop s1.src with
        | none => (s1, vals)
        | some (v, srcRest) =>
          let s2 := { s1 with src := srcRest, pops := s1.pops + 1 }
          if redisDst then
            accumFrom redisDst sc.shift remaining s2 (vals ++ [v])
          else if sc.writeOk 0 then
            accumFrom redisDst sc.shift remaining
              { s2 with fileOut := s2.fileOut ++ [v ++ "\n"] } vals
          else
            ({ s2 with gStop := false }, vals)

/-- The delivery/retry loop of `move_thread_proc`
(`while (!values.empty()) { ... }`, lines 352–379): if the queue-store
variant's `lpush` throws (`pushOk a = false`), log, `millisleep`, and retry
the same `values`; on success (and always in the file variant, where
`dst_redis == NULL` skips the push) atomically add `values.size()` to the
counter and `break`.  `fuel` bounds the number of modelled attempts; the
returned `Bool` is `true` iff the loop exited within that fuel. -/
def deliverN (redisDst : Bool) (pushOk : Nat → Bool) :
    Nat → List String → MState → MState × Bool
  | 0, _, s => (s, false)
  | fuel + 1, vals, s =>
    if vals = [] then (s, true)
    else if redisDst && !pushOk 0 then
      deliverN redisDst (fun a => pushOk (a + 1)) fuel vals
        { s with pushCalls := s.pushCalls + 1, sleeps := s.sleeps + 1 }
    else
      let s1 :=
        if redisDst then
          { s with dstQ := lpush vals s.dstQ, pushCalls := s.pushCalls + 1,
                   pushLog := s.pushLog ++ [vals] }
        else s
      ({ s1 with counter := s1.counter + vals.length }, true)

/-- One iteration of the worker's outer loop body (lines 313–379):
`values.clear()`, accumulate a batch, then either idle-backoff sleep
(empty batch) or deliver the batch. -/
def outerIter (redisDst : Bool) (sc : Sched) (pushOk : Nat → Bool)
    (pushFuel batch : Nat) (s : MState) : MState :=
  let r := accumFrom redisDst sc batch s []
  if r.2 = [] then { r.1 with sleeps := r.1.sleeps + 1 }
  else (deliverN redisDst pushOk pushFuel r.2 r.1).1

/-- The worker's outer loop `while (!g_stop) { ... }` (lines 311–380), run
for at most `fuel` iterations; iteration `i` uses schedules `scs i` and
`pushOks i`.  When `gStop` holds at the top of the loop the state is
returned unchanged: the loop has exited. -/
def outerRun (redisDst : Bool) (scs : Nat → Sched) (pushOks : Nat → Nat → Bool)
    (pushFuel batch : Nat) : Nat → Nat → MState → MState
  | _, 0, s => s
  | i, fuel + 1, s =>
    if s.gStop then s
    else
      outerRun redisDst scs pushOks pushFuel batch (i + 1) fuel
        (outerIter redisDst (scs i) (pushOks i) pushFuel batch s)

/-- Worker state at thread start: empty destination, `g_stop` false,
`g_num_moved` zero. -/
def initState (src : List String) : MState :=
  { src := src, dstQ := [], fileOut := [], gStop := false, counter := 0,
    pops := 0, sleeps := 0, pushCalls := 0, pushLog := [] }

/-- Schedule with no signal, no redis exceptions, successful writes. -/
def calmSched : Sched := ⟨fun _ => false, fun _ => false, fun _ => true⟩

/-- `get_src_key` (lines 386–392): the source key is the bare prefix when
`src_only_prefix == 1`, else `format_string("%s%d", prefix, i)`. -/
def get_src_key (srcOnlyPfx : Nat) (pfx : String) (i : Int) : String :=
  if 1 = srcOnlyPfx then pfx
  else pfx ++ toString i

/-- `get_dst_key` (lines 394–400): same shape for the destination key. -/
def get_dst_key (dstOnlyPfx : Nat) (pfx : String) (i : Int) : String :=
  if 1 = dstOnlyPfx then pfx
  else pfx ++ toString i

/-- POSIX access mode of an open file description. -/
inductive OpenMode where
  | readOnly
  | writeOnly
  | readWrite
  deriving Repr, DecidableEq

/-- The access mode `move_thread_proc` opens the destination file with
(line 293): `open(dst_file, O_RDONLY)`. -/
def move_thread_dst_open_mode : OpenMode := OpenMode.readOnly

/-- POSIX `write(2)` against a descriptor of the given access mode: a
descriptor opened read-only cannot be written (`EBADF`), otherwise the
bytes are appended. -/
def fdWrite (m : OpenMode) (content : List String) (v : String) :
    Option (List String) :=
  match m with
  | OpenMode.readOnly => none
  | OpenMode.writeOnly => some (content ++ [v])
  | OpenMode.readWrite => some (content ++ [v])

/-- Schedule where every `write(2)` call fails (as the `O_RDONLY`
destination descriptor forces), with no signal and no redis errors. -/
def fileFailSched : Sched := ⟨fun _ => false, fun _ => false, fun _ => false⟩

/-- Schedule where the signal thread sets `g_stop` right after the first
inner-loop check, and the `write(2)` call of that iteration fails. -/
def sigWriteFail : Sched := ⟨fun k => k == 0, fun _ => false, fun _ => false⟩

/-- Schedule where the signal thread sets `g_stop` right after the first
inner-loop check, and all `write(2)` calls succeed. -/
def sigWriteOk : Sched := ⟨fun k => k == 0, fun _ => false, fun _ => true⟩

/-- Schedule where the signal thread sets `g_stop` right after the
`j`-th inner-loop check, with no redis errors and successful writes. -/
def sigAt (j : Nat) : Sched := ⟨fun k => k == j, fun _ => false, fun _ => true⟩

/-- Worker state with the Shutdown Flag already set. -/
def stoppedState : MState := { initState [] with gStop := true }

/-- Push-outcome schedule where every `lpush` attempt throws. -/
def neverOk : Nat → Bool := fun _ => false

/-- Push-outcome schedule: the first `lpush` attempt throws, later ones
succeed. -/
def failOnce : Nat → Bool := fun a => decide (1 ≤ a)

/-- Push-outcome schedule: the first two `lpush` attempts throw, later
ones succeed. -/
def failTwice : Nat → Bool := fun a => decide (2 ≤ a)

/-- One outer iteration of a file-variant worker with one source value and
a succeeding `write(2)` call. -/
def fileCalmRun : MState :=
  outerRun false (fun _ => calmSched) (fun _ _ => true) 1 1 0 1 (initState ["a"])

/-- Two outer iterations of a file-variant worker whose `write(2)` calls
all fail, on a two-value source queue. -/
def fileFailRun : MState :=
  outerRun false (fun _ => fileFailSched) (fun _ _ => true) 1 1 0 2
    (initState ["a", "b"])

/-- The spec's concrete drain scenario: queue-store variant, one worker,
batch 2, source queue `["a", "b", "c"]`, no errors, run for the two outer
iterations that empty the source. -/
def drainRun : MState :=
  outerRun true (fun _ => calmSched) (fun _ _ => true) 1 2 0 2
    (initState ["a", "b", "c"])

lemma rpop_concat (ys : List String) (v : String) : rpop (ys ++ [v]) = some (v, ys) := by
  simp [rpop, List.getLast?_concat, List.dropLast_concat]

lemma deliverN_retry_eq (M : Nat) :
    ∀ (pushOk : Nat → Bool) (fuel : Nat) (vals : List String) (s : MState),
    vals ≠ [] → (∀ a, a < M → pushOk a = false) → pushOk M = true → M < fuel →
    deliverN true pushOk fuel vals s =
      ({ s with dstQ := lpush vals s.dstQ,
                pushCalls := s.pushCalls + (M + 1),
                sleeps := s.sleeps + M,
                pushLog := s.pushLog ++ [vals],
                counter := s.counter + vals.length }, true) := by
  induction M with
  | zero =>
    intro pushOk fuel vals s hv _ hs hfuel
    obtain ⟨f, rfl⟩ : ∃ f, fuel = f + 1 := ⟨fuel - 1, by omega⟩
    simp [deliverN, hv, hs]
  | succ m ih =>
    intro pushOk fuel vals s hv hf hs hfuel
    obtain ⟨f, rfl⟩ : ∃ f, fuel = f + 1 := ⟨fuel - 1, by omega⟩
    have h0 : pushOk 0 = false := hf 0 (Nat.succ_pos m)
    rw [deliverN, if_neg hv]
    simp only [h0]
    rw [if_pos (by simp)]
    rw [ih (fun a => pushOk (a + 1)) f vals _ hv
      (fun a ha => hf (a + 1) (by omega)) hs (by omega)]
    simp only [Prod.mk.injEq, and_true, true_and, MState.mk.injEq]
    omega

lemma deliverN_allfail :
    ∀ (fuel : Nat) (pushOk : Nat → Bool) (vals : List String) (s : MState),
    (∀ a, pushOk a = false) → vals ≠ [] →
    deliverN true pushOk fuel vals s =
      ({ s with pushCalls := s.pushCalls + fuel, sleeps := s.sleeps + fuel },
       false) := by
  intro fuel
  induction fuel with
  | zero => intro pushOk vals s _ _; rfl
  | succ f ih =>
    intro pushOk vals s hall hv
    rw [deliverN, if_neg hv]
    simp only [hall 0]
    rw [if_pos (by simp)]
    rw [ih (fun a => pushOk (a + 1)) vals _ (fun a => hall (a + 1)) hv]
    simp only [Prod.mk.injEq, and_true, true_and, MState.mk.injEq]
    omega

lemma accum_sig_char (j : Nat) :
    ∀ (sc : Sched) (remaining : Nat) (vals srcRest dstQ fileOut : List String)
      (counter pops sleeps pushCalls : Nat) (pushLog : List (List String))
      (vals0 : List String),
    (∀ k, k < j → sc.sig k = false) → sc.sig j = true →
    (∀ k, sc.popErr k = false) → j + 1 < remaining → vals.length = j + 1 →
    accumFrom true sc remaining
      ⟨srcRest ++ vals.reverse, dstQ, fileOut, false, counter, pops, sleeps,
       pushCalls, pushLog⟩ vals0 =
      (⟨srcRest, dstQ, fileOut, true, counter, pops + (j + 1), sleeps,
        pushCalls, pushLog⟩, vals0 ++ vals) := by
  induction j with
  | zero =>
    intro sc remaining vals srcRest dstQ fileOut counter pops sleeps pushCalls
      pushLog vals0 _ hj hpe hr hlen
    obtain ⟨v, rfl⟩ : ∃ v, vals = [v] := by
      match vals, hlen with
      | [v], _ => exact ⟨v, rfl⟩
    obtain ⟨r, rfl⟩ : ∃ r, remaining = r + 2 := ⟨remaining - 2, by omega⟩
    rw [accumFrom]
    rw [if_neg (by simp)]
    simp only [hj, hpe, if_true, Bool.false_eq_true, if_false,
      List.reverse_singleton, rpop_concat]
    rw [accumFrom, if_pos rfl]
  | succ m ih =>
    intro sc remaining vals srcRest dstQ fileOut counter pops sleeps pushCalls
      pushLog vals0 hlt hj hpe hr hlen
    obtain ⟨v, vals', rfl⟩ : ∃ v vals', vals = v :: vals' := by
      match vals, hlen with
      | v :: vals', _ => exact ⟨v, vals', rfl⟩
    have hlen2 : vals'.length = m + 1 := by
      simp only [List.length_cons] at hlen; omega
    obtain ⟨r, rfl⟩ : ∃ r, remaining = r + 2 := ⟨remaining - 2, by omega⟩
    have h0 : sc.sig 0 = false := hlt 0 (Nat.succ_pos m)
    rw [accumFrom]
    rw [if_neg (by simp)]
    simp only [h0, hpe, Bool.false_eq_true, if_false, List.reverse_cons,
      ← List.append_assoc, rpop_concat, eq_self_iff_true, if_true]
    have hbound : m + 1 < r + 1 := by omega
    rw [ih sc.shift (r + 1) vals' srcRest dstQ fileOut counter (pops + 1)
      sleeps pushCalls pushLog (vals0 ++ [v])
      (fun k hk => hlt (k + 1) (by omega)) hj (fun k => hpe (k + 1))
      hbound hlen2]
    simp only [Prod.mk.injEq, MState.mk.injEq, List.append_assoc,
      List.singleton_append, and_true, true_and]
    omega

lemma accum_frame (redisDst : Bool) :
    ∀ (remaining : Nat) (sc : Sched) (s : MState) (vals : List String),
    (accumFrom redisDst sc remaining s vals).1.counter = s.counter ∧
    (accumFrom redisDst sc remaining s vals).1.sleeps = s.sleeps ∧
    (accumFrom redisDst sc remaining s vals).1.dstQ = s.dstQ ∧
    (accumFrom redisDst sc remaining s vals).1.pushCalls = s.pushCalls ∧
    (accumFrom redisDst sc remaining s vals).1.pushLog = s.pushLog := by
  intro remaining
  induction remaining with
  | zero => intro sc s vals; exact ⟨rfl, rfl, rfl, rfl, rfl⟩
  | succ r ih =>
    intro sc s vals
    rw [accumFrom]
    by_cases hg : s.gStop = true
    · rw [if_pos hg]; exact ⟨rfl, rfl, rfl, rfl, rfl⟩
    · rw [if_neg hg]
      cases hsig : sc.sig 0 <;> cases hpe : sc.popErr 0 <;>
        simp only [hsig, hpe, if_true, if_false, Bool.false_eq_true,
          Bool.true_eq_false, ite_true, ite_false]
      case neg.false.true => simpa using ih sc.shift s vals
      case neg.true.true => simpa using ih sc.shift { s with gStop := true } vals
      case neg.false.false =>
        cases hpop : rpop s.src
        case none => simp [hpop]
        case some pair =>
          obtain ⟨v, srcRest⟩ := pair
          simp only [hpop]
          cases redisDst
          case true => simpa using ih sc.shift _ _
          case false =>
            cases hw : sc.writeOk 0 <;> simp only [hw, if_true, if_false,
              Bool.false_eq_true, ite_true, ite_false]
            case true => simpa using ih sc.shift _ _
            case false => simp
      case neg.true.false =>
        cases hpop : rpop s.src
        case none => simp [hpop]
        case some pair =>
          obtain ⟨v, srcRest⟩ := pair
          simp only [hpop]
          cases redisDst
          case true => simpa using ih sc.shift _ _
          case false =>
            cases hw : sc.writeOk 0 <;> simp only [hw, if_true, if_false,
              Bool.false_eq_true, ite_true, ite_false]
            case true => simpa using ih sc.shift _ _
            case false => simp

lemma accum_file_vals :
    ∀ (remaining : Nat) (sc : Sched) (s : MState) (vals : List String),
    (accumFrom false sc remaining s vals).2 = vals := by
  intro remaining
  induction remaining with
  | zero => intro sc s vals; rfl
  | succ r ih =>
    intro sc s vals
    rw [accumFrom]
    by_cases hg : s.gStop = true
    · rw [if_pos hg]
    · rw [if_neg hg]
      cases hsig : sc.sig 0 <;> cases hpe : sc.popErr 0 <;>
        simp only [hsig, hpe, if_true, if_false, Bool.false_eq_true,
          Bool.true_eq_false, ite_true, ite_false]
      case neg.false.true => exact ih sc.shift s vals
      case neg.true.true => exact ih sc.shift _ vals
      case neg.false.false =>
        cases hpop : rpop s.src
        case none => simp [hpop]
        case some pair =>
          obtain ⟨v, srcRest⟩ := pair
          simp only [hpop]
          cases hw : sc.writeOk 0 <;> simp only [hw, if_true, if_false,
            Bool.false_eq_true, ite_true, ite_false]
          exact ih sc.shift _ vals
      case neg.true.false =>
        cases hpop : rpop s.src
        case none => simp [hpop]
        case some pair =>
          obtain ⟨v, srcRest⟩ := pair
          simp only [hpop]
          cases hw : sc.writeOk 0 <;> simp only [hw, if_true, if_false,
            Bool.false_eq_true, ite_true, ite_false]
          exact ih sc.shift _ vals

lemma outerRun_stopped (redisDst : Bool) (scs : Nat → Sched)
    (pushOks : Nat → Nat → Bool) (pushFuel batch i fuel : Nat) (s : MState)
    (h : s.gStop = true) :
    outerRun redisDst scs pushOks pushFuel batch i fuel s = s := by
  cases fuel with
  | zero => rfl
  | succ f => rw [outerRun, if_pos h]

lemma outerIter_file_counter (sc : Sched) (pushOk : Nat → Bool)
    (pushFuel batch : Nat) (s : MState) :
    (outerIter false sc pushOk pushFuel batch s).counter = s.counter := by
  rw [outerIter]
  rw [if_pos (accum_file_vals batch sc s [])]
  simpa using (accum_frame false batch sc s []).1

lemma outerRun_file_counter :
    ∀ (fuel i : Nat) (scs : Nat → Sched) (pushOks : Nat → Nat → Bool)
      (pushFuel batch : Nat) (s : MState),
    (outerRun false scs pushOks pushFuel batch i fuel s).counter = s.counter := by
  intro fuel
  induction fuel with
  | zero => intros; rfl
  | succ f ih =>
    intro i scs pushOks pushFuel batch s
    rw [outerRun]
    by_cases hg : s.gStop = true
    · rw [if_pos hg]
    · rw [if_neg hg]
      rw [ih (i + 1) scs pushOks pushFuel batch _]
      exact outerIter_file_counter (scs i) (pushOks i) pushFuel batch s

/-- C5: `move_thread_proc` opens the destination file with `O_RDONLY`
(line 293), so every `write(2)` against that descriptor returns an error
instead of appending the value. -/
theorem C5_dst_file_opened_readonly_write_fails :
    move_thread_dst_open_mode = OpenMode.readOnly ∧
    ∀ (content : List String) (v : String),
      fdWrite move_thread_dst_open_mode content v = none :=
  ⟨rfl, fun _ _ => rfl⟩

/-- C9: the key-naming functions return the prefix unchanged when the
only-prefix flag is `1` (for every prefix and index), and otherwise the
prefix followed by the decimal representation of the index; they are pure
and total, and `get_src_key 0 "mooon:" 2 = "mooon:2"`. -/
theorem C9_key_naming :
    (∀ (pfx : String) (i : Int),
      get_src_key 1 pfx i = pfx ∧ get_dst_key 1 pfx i = pfx) ∧
    (∀ (pfx : String) (i : Int),
      get_src_key 0 pfx i = pfx ++ toString i ∧
      get_dst_key 0 pfx i = pfx ++ toString i) ∧
    get_src_key 0 "mooon:" 2 = "mooon:2" ∧
    get_src_key 1 "mooon:" 2 = "mooon:" :=
  ⟨fun _ _ => ⟨rfl, rfl⟩, fun _ _ => ⟨rfl, rfl⟩, by decide, by decide⟩

/-- C1 counterexample: in the file-sink variant a value is successfully
delivered (written to the file) but the Move Counter is not incremented —
it stays `0` instead of `1` — refuting the claim for the file variant. -/
theorem C1_counter_not_incremented_on_file_delivery :
    fileCalmRun.fileOut = ["a\n"] ∧ fileCalmRun.counter = 0 := by decide

/-- C2: after a file-write failure the worker does not exit: it goes on
popping (two pops across two iterations although every write fails, so the
popped values are lost), and `g_stop` ends up `false`. -/
theorem C2_write_failure_worker_continues :
    fileFailRun.pops = 2 ∧ fileFailRun.gStop = false ∧
    fileFailRun.fileOut = [] := by decide

/-- C3: the write-failure branch assigns `g_stop = false`; when the signal
thread has set the flag after the loop-condition check, a failing write
reverts it to `false`, while the same run with a succeeding write leaves it
`true`. -/
theorem C3_gStop_reverted_by_write_failure :
    (accumFrom false sigWriteFail 1 (initState ["a"]) []).1.gStop = false ∧
    (accumFrom false sigWriteOk 1 (initState ["a"]) []).1.gStop = true := by
  decide

/-- C7 counterexample: in the spec's concrete drain scenario the final
destination list front-to-back is not `c, b, a`. -/
theorem C7_final_order_not_cba : drainRun.dstQ ≠ ["c", "b", "a"] := by decide

/-- C7 amended: the drain pushes first the batch `["c", "b"]`, then
`["a"]`, the Move Counter ends at `3` and the source is drained, but since
a push puts its batch at the head of the destination queue, the final
destination order front-to-back is `a, c, b`. -/
theorem C7_amended_drain_scenario :
    drainRun.pushLog = [["c", "b"], ["a"]] ∧ drainRun.dstQ = ["a", "c", "b"] ∧
    drainRun.counter = 3 ∧ drainRun.src = [] := by decide

/-- C4 counterexample: with the Shutdown Flag already set and every push
failing, the retry loop `while (!values.empty())` never terminates — no
number of sleep intervals suffices — because the loop condition never
consults `g_stop`. -/
theorem C4_retry_ignores_stop_flag :
    stoppedState.gStop = true ∧
    ¬ ∃ n : Nat, (deliverN true neverOk n ["x"] stoppedState).2 = true := by
  refine ⟨rfl, ?_⟩
  rintro ⟨n, hn⟩
  rw [deliverN_allfail n neverOk ["x"] stoppedState (fun _ => rfl)
    (by decide)] at hn
  exact Bool.false_ne_true hn

/-- C4 amended: the retry loop terminates exactly when a push succeeds,
regardless of the Shutdown Flag: if the first `M` pushes fail and the next
succeeds, the loop exits after `M` sleep intervals and `M + 1` store
calls, and issues no store call afterwards. -/
theorem C4_amended_retry_stops_on_success :
    ∀ (pushOk : Nat → Bool) (M fuel : Nat) (vals : List String) (s : MState),
    vals ≠ [] → (∀ a, a < M → pushOk a = false) → pushOk M = true →
    M < fuel →
    (deliverN true pushOk fuel vals s).2 = true ∧
    (deliverN true pushOk fuel vals s).1.sleeps = s.sleeps + M ∧
    (deliverN true pushOk fuel vals s).1.pushCalls = s.pushCalls + (M + 1) := by
  intro pushOk M fuel vals s hv hf hs hfuel
  rw [deliverN_retry_eq M pushOk fuel vals s hv hf hs hfuel]
  exact ⟨rfl, rfl, rfl⟩

/-- C4 witness: two failing pushes then a success, with the Shutdown Flag
set throughout: the loop exits after two sleeps and three store calls. -/
theorem C4_amended_retry_stops_on_success_witness :
    (deliverN true failTwice 4 ["x"] stoppedState).2 = true ∧
    (deliverN true failTwice 4 ["x"] stoppedState).1.sleeps = 0 + 2 ∧
    (deliverN true failTwice 4 ["x"] stoppedState).1.pushCalls = 0 + (2 + 1) :=
  C4_amended_retry_stops_on_success failTwice 2 4 ["x"] stoppedState
    (by decide) (by intro a ha; simp [failTwice]; omega) (by decide) (by decide)

/-- C6: if a push of a batch fails `M` times and then succeeds, the batch
is delivered to the destination exactly once (one new entry in the push
log, the batch prepended once), the counter grows by exactly the batch
length once, and no value is re-popped from the source. -/
theorem C6_retry_delivers_exactly_once :
    ∀ (pushOk : Nat → Bool) (M fuel : Nat) (vals : List String) (s : MState),
    vals ≠ [] → (∀ a, a < M → pushOk a = false) → pushOk M = true →
    M < fuel →
    (deliverN true pushOk fuel vals s).1.dstQ = lpush vals s.dstQ ∧
    (deliverN true pushOk fuel vals s).1.pushLog = s.pushLog ++ [vals] ∧
    (deliverN true pushOk fuel vals s).1.counter = s.counter + vals.length ∧
    (deliverN true pushOk fuel vals s).1.src = s.src ∧
    (deliverN true pushOk fuel vals s).1.pops = s.pops := by
  intro pushOk M fuel vals s hv hf hs hfuel
  rw [deliverN_retry_eq M pushOk fuel vals s hv hf hs hfuel]
  exact ⟨rfl, rfl, rfl, rfl, rfl⟩

/-- C6 witness: one failing push then a success on the batch
`["x", "y"]`: delivered once, counter grows by exactly `2`. -/
theorem C6_retry_delivers_exactly_once_witness :
    (deliverN true failOnce 3 ["x", "y"] (initState ["z"])).1.dstQ =
      lpush ["x", "y"] [] ∧
    (deliverN true failOnce 3 ["x", "y"] (initState ["z"])).1.pushLog =
      [] ++ [["x", "y"]] ∧
    (deliverN true failOnce 3 ["x", "y"] (initState ["z"])).1.counter =
      0 + 2 ∧
    (deliverN true failOnce 3 ["x", "y"] (initState ["z"])).1.src = ["z"] ∧
    (deliverN true failOnce 3 ["x", "y"] (initState ["z"])).1.pops = 0 :=
  C6_retry_delivers_exactly_once failOnce 1 3 ["x", "y"] (initState ["z"])
    (by decide) (by intro a ha; simp [failOnce]; omega) (by decide) (by decide)

/-- C1 amended: the Move Counter is incremented by exactly `len(Batch)`
on each successful queue-store push and left unchanged by failed pushes,
but in the file-sink variant the counter is never incremented at all
(successful file deliveries are not counted), for every schedule and
fuel. -/
theorem C1_amended_counter_increment :
    (∀ (scs : Nat → Sched) (pushOks : Nat → Nat → Bool)
       (pushFuel batch i fuel : Nat) (s : MState),
       (outerRun false scs pushOks pushFuel batch i fuel s).counter =
         s.counter) ∧
    (∀ (pushOk : Nat → Bool) (fuel : Nat) (vals : List String) (s : MState),
       vals ≠ [] → pushOk 0 = true →
       (deliverN true pushOk (fuel + 1) vals s).1.counter =
         s.counter + vals.length) ∧
    (∀ (pushOk : Nat → Bool) (fuel : Nat) (vals : List String) (s : MState),
       (∀ a, pushOk a = false) →
       (deliverN true pushOk fuel vals s).1.counter = s.counter) := by
  refine ⟨?_, ?_, ?_⟩
  · intro scs pushOks pushFuel batch i fuel s
    exact outerRun_file_counter fuel i scs pushOks pushFuel batch s
  · intro pushOk fuel vals s hv hp
    rw [deliverN_retry_eq 0 pushOk (fuel + 1) vals s hv
      (fun a ha => absurd ha (Nat.not_lt_zero a)) hp (Nat.succ_pos fuel)]
  · intro pushOk fuel vals s hall
    by_cases hv : vals = []
    · subst hv
      cases fuel with
      | zero => rfl
      | succ f => rw [deliverN, if_pos rfl]
    · rw [deliverN_allfail fuel pushOk vals s hall hv]

/-- C1 witness: a file-variant run that delivers a value leaves the
counter at `0`; a succeeding push adds the batch length; an always-failing
push adds nothing. -/
theorem C1_amended_counter_increment_witness :
    (outerRun false (fun _ => calmSched) (fun _ _ => true) 1 1 0 1
      (initState ["a"])).counter = 0 ∧
    (deliverN true (fun _ => true) 1 ["x"] (initState [])).1.counter =
      0 + 1 ∧
    (deliverN true neverOk 5 ["x"] (initState [])).1.counter = 0 :=
  ⟨C1_amended_counter_increment.1 (fun _ => calmSched) (fun _ _ => true)
      1 1 0 1 (initState ["a"]),
   C1_amended_counter_increment.2.1 (fun _ => true) 0 ["x"] (initState [])
      (by decide) rfl,
   C1_amended_counter_increment.2.2 neverOk 5 ["x"] (initState [])
      (fun _ => rfl)⟩

/-- C8 counterexample: a file-variant worker that pops and successfully
writes a value still ends that iteration with an idle-backoff sleep,
because file-written values never enter the Batch, so the Batch is judged
empty. -/
theorem C8_file_variant_sleeps_after_delivery :
    fileCalmRun.fileOut = ["a\n"] ∧ fileCalmRun.pops = 1 ∧
    fileCalmRun.sleeps = 1 := by decide

/-- C8 amended: in the queue-store variant, an iteration whose batch is
non-empty and whose first push succeeds adds no sleep, and an iteration
with an empty batch sleeps exactly once; the file variant violates the
claim. -/
theorem C8_amended_queue_variant_no_sleep_after_delivery :
    ∀ (sc : Sched) (pushOk : Nat → Bool) (pushFuel batch : Nat) (s : MState),
    ((accumFrom true sc batch s []).2 ≠ [] → pushOk 0 = true →
      (outerIter true sc pushOk (pushFuel + 1) batch s).sleeps = s.sleeps) ∧
    ((accumFrom true sc batch s []).2 = [] →
      (outerIter true sc pushOk (pushFuel + 1) batch s).sleeps =
        s.sleeps + 1) := by
  intro sc pushOk pushFuel batch s
  constructor
  · intro hv hp
    rw [outerIter]
    rw [if_neg hv]
    rw [deliverN_retry_eq 0 pushOk (pushFuel + 1) _ _ hv
      (fun a ha => absurd ha (Nat.not_lt_zero a)) hp (Nat.succ_pos pushFuel)]
    simpa using (accum_frame true batch sc s []).2.1
  · intro hv
    rw [outerIter]
    rw [if_pos hv]
    simpa using (accum_frame true batch sc s []).2.1

/-- C8 witness: a queue-store iteration that pops and delivers one value
does not sleep; one that pops nothing sleeps once. -/
theorem C8_amended_queue_variant_no_sleep_after_delivery_witness :
    ((accumFrom true calmSched 1 (initState ["a"]) []).2 ≠ [] ∧
      (outerIter true calmSched (fun _ => true) 1 1
        (initState ["a"])).sleeps = 0) ∧
    ((accumFrom true calmSched 1 (initState []) []).2 = [] ∧
      (outerIter true calmSched (fun _ => true) 1 1
        (initState [])).sleeps = 0 + 1) :=
  ⟨⟨by decide,
    (C8_amended_queue_variant_no_sleep_after_delivery calmSched
      (fun _ => true) 0 1 (initState ["a"])).1 (by decide) rfl⟩,
   ⟨by decide,
    (C8_amended_queue_variant_no_sleep_after_delivery calmSched
      (fun _ => true) 0 1 (initState [])).2 (by decide)⟩⟩

/-- C10: in the queue-store variant, when the signal thread sets the
Shutdown Flag after the worker has already popped `j + 1` values of its
batch (`j + 1 < batch`, so the accumulation was cut short by the flag, not
by the batch bound), the worker still delivers that partial batch, adds
its length to the Move Counter, and then exits the outer loop (the state
is final for any remaining fuel); the source lost exactly the delivered
values. -/
theorem C10_partial_batch_delivered_on_shutdown :
    ∀ (j batch pushFuel fuel : Nat) (scs : Nat → Sched)
      (pushOks : Nat → Nat → Bool) (s : MState) (vals srcRest : List String),
    s.gStop = false → s.src = srcRest ++ vals.reverse →
    vals.length = j + 1 →
    (∀ k, k < j → (scs 0).sig k = false) → (scs 0).sig j = true →
    (∀ k, (scs 0).popErr k = false) → pushOks 0 0 = true →
    j + 1 < batch →
    outerRun true scs pushOks (pushFuel + 1) batch 0 (fuel + 1) s =
      { s with src := srcRest, dstQ := lpush vals s.dstQ, gStop := true,
               counter := s.counter + vals.length,
               pops := s.pops + (j + 1),
               pushCalls := s.pushCalls + 1,
               pushLog := s.pushLog ++ [vals] } := by
  intro j batch pushFuel fuel scs pushOks s vals srcRest hg hsrc hlen hlt hj
    hpe hpush hb
  obtain ⟨src, dstQ, fileOut, gStop, counter, pops, sleeps, pushCalls,
    pushLog⟩ := s
  dsimp only at hg hsrc
  subst hg hsrc
  have hvne : vals ≠ [] := by
    intro h; rw [h] at hlen; simp at hlen
  rw [outerRun, if_neg (by simp)]
  rw [outerIter]
  rw [accum_sig_char j (scs 0) batch vals srcRest dstQ fileOut counter pops
    sleeps pushCalls pushLog [] hlt hj hpe hb hlen]
  dsimp only
  rw [if_neg (by simpa using hvne)]
  simp only [List.nil_append]
  rw [deliverN_retry_eq 0 (pushOks 0) (pushFuel + 1) vals _ hvne
    (fun a ha => absurd ha (Nat.not_lt_zero a)) hpush (Nat.succ_pos pushFuel)]
  dsimp only
  rw [outerRun_stopped true scs pushOks (pushFuel + 1) batch 1 fuel _ rfl]
  rfl

/-- C10 witness: with the flag raised after two pops of a three-value
batch, the two popped values are pushed, counted, and the worker exits. -/
theorem C10_partial_batch_delivered_on_shutdown_witness :
    outerRun true (fun _ => sigAt 1) (fun _ _ => true) 1 3 0 5
      (initState ["a", "b", "c"]) =
      { initState ["a", "b", "c"] with
          src := ["a"], dstQ := lpush ["c", "b"] [], gStop := true,
          counter := 0 + ["c", "b"].length, pops := 0 + (1 + 1),
          pushCalls := 0 + 1, pushLog := [] ++ [["c", "b"]] } :=
  C10_partial_batch_delivered_on_shutdown 1 3 0 4 (fun _ => sigAt 1)
    (fun _ _ => true) (initState ["a", "b", "c"]) ["c", "b"] ["a"]
    rfl (by decide) (by decide)
    (by intro k hk; match k, hk with
        | 0, _ => rfl
        | m + 1, h => exact absurd h (by omega)) (by decide)
    (fun _ => rfl) rfl (by decide)
